import Mathlib

/-!
# todo-list-api: the handlers of `main.go` as pure functions on the store

The program keeps one global `store` (two maps guarded by an `RWMutex`) and six HTTP
handlers.  Each handler is embedded as a function from the store and the request to the
new store and the response that was written.  Everything a handler obtains from a library
(cookie lookup, JWT parsing, JSON decoding, bcrypt, the clock, the mux path variable) is a
field of the request value, so the functions below follow the control flow of the source
line by line.
-/

namespace TodoApi

/-! ## Data model (`main.go` lines 17-43) -/

/-- The `Credentials` struct. -/
structure Credentials where
  Username : String
  Password : String
deriving DecidableEq, Repr

/-- The `Todo` struct.  `ID` is a Go `int`; `CreatedAt` is a `time.Time`, kept as an instant
on an abstract clock. -/
structure Todo where
  ID : Int
  Title : String
  Completed : Bool
  CreatedAt : Nat
deriving DecidableEq, Repr

/-- The `Store` struct without its lock.  A Go map lookup of an absent key yields the zero
value: `users[k]` is then reported with `exists = false` (here `none`), and `todos[k]` is the
nil slice, which has length 0, ranges over nothing and appends like the empty slice (here
`[]`). -/
structure Store where
  users : String → Option String
  todos : String → List Todo

/-- The initial value of the global `store`: two empty maps. -/
def Store.empty : Store := ⟨fun _ => none, fun _ => []⟩

/-! ## Requests and responses -/

/-- Result of `r.Cookie("token")`. -/
inductive CookieResult where
  | errNoCookie
  | errOther
  | found (value : String)
deriving DecidableEq, Repr

/-- The error value returned by `jwt.ParseWithClaims`, as far as the handler can tell values
apart: the handler compares it with the sentinel `jwt.ErrSignatureInvalid` by `==`; every
other non-nil error (for instance a `*jwt.ValidationError` carrying the bit mask `errors`) is
a different value. -/
inductive ParseError where
  | errSignatureInvalid
  | validationError (errors : Nat)
deriving DecidableEq, Repr

/-- Bit of `ValidationError.Errors` for a token that could not be decoded. -/
def validationErrorMalformed : Nat := 1
/-- Bit of `ValidationError.Errors` for a failed signature check. -/
def validationErrorSignatureInvalid : Nat := 4
/-- Bit of `ValidationError.Errors` for an `exp` claim in the past. -/
def validationErrorExpired : Nat := 16

/-- What `jwt.ParseWithClaims(tokenStr, claims, keyFunc)` hands back: the error, the `Valid`
flag of the returned token and the `Username` that was decoded into `claims`. -/
structure ParseResult where
  err : Option ParseError
  valid : Bool
  username : String
deriving DecidableEq, Repr

/-- One inbound request together with the results of the library calls made on it. -/
structure Request where
  /-- Value of `r.Cookie("token")`. -/
  cookie : CookieResult
  /-- Value of `jwt.ParseWithClaims` on the cookie value. -/
  parsed : ParseResult
  /-- Value of `json.NewDecoder(r.Body).Decode(&todo)`: `none` when it returns an error. -/
  todoBody : Option Todo
  /-- Value of `json.NewDecoder(r.Body).Decode(&creds)`: `none` when it returns an error. -/
  credsBody : Option Credentials
  /-- Value of `bcrypt.GenerateFromPassword`: `none` when it returns an error. -/
  bcryptHash : Option String
  /-- Whether `bcrypt.CompareHashAndPassword` accepts the stored hash for the password. -/
  bcryptMatches : String → String → Bool
  /-- Value of `token.SignedString(jwtKey)`: `none` when it returns an error. -/
  signed : Option String
  /-- Value of `mux.Vars(r)["id"]`. -/
  pathId : String
  /-- Value of `time.Now()`. -/
  now : Nat

/-- What a handler wrote to the `ResponseWriter`. -/
inductive Body where
  | empty
  | text (msg : String)
  | todo (t : Todo)
  | todos (ts : List Todo)
  | cookie (value : String) (expires : Nat)
deriving DecidableEq, Repr

/-- Status code and body of a response.  A handler that returns without writing anything
leaves Go's default, status 200 with an empty body. -/
structure Response where
  status : Nat
  body : Body
deriving DecidableEq, Repr

/-- The call `http.Error(w, msg, code)`. -/
def httpError (msg : String) (code : Nat) : Response := ⟨code, .text msg⟩

def statusOK : Nat := 200
def statusCreated : Nat := 201
def statusNoContent : Nat := 204
def statusBadRequest : Nat := 400
def statusUnauthorized : Nat := 401
def statusNotFound : Nat := 404
def statusInternalServerError : Nat := 500

/-- The response of a handler that returned without writing. -/
def noResponse : Response := ⟨statusOK, .empty⟩

/-! ## `fmt.Sprintf("%d", id)` -/

/-- Decimal rendering of a Go `int` by `fmt.Sprintf("%d", _)`: the digits of the magnitude,
most significant first, with a leading minus sign for a negative number. -/
def fmtD : Int → String
  | .ofNat n => Nat.repr n
  | .negSucc n => "-" ++ Nat.repr (n + 1)

/-! ## Session resolver (`main.go` lines 189-218) -/

/-- The function `getUsernameFromRequest`: the response it wrote (if any) and the string it
returned. -/
def getUsernameFromRequest (r : Request) : Response × String :=
  match r.cookie with
  | .errNoCookie => (httpError "Unauthorized" statusUnauthorized, "")
  | .errOther => (httpError "Bad request" statusBadRequest, "")
  | .found _ =>
    match r.parsed.err with
    | some .errSignatureInvalid => (httpError "Unauthorized" statusUnauthorized, "")
    | some (.validationError _) => (httpError "Bad request" statusBadRequest, "")
    | none =>
      if !r.parsed.valid then (httpError "Unauthorized" statusUnauthorized, "")
      else (noResponse, r.parsed.username)

/-! ## Credential handlers (`main.go` lines 45-101) -/

/-- The handler `SignUp`. -/
def SignUp (s : Store) (r : Request) : Store × Response :=
  match r.credsBody with
  | none => (s, httpError "Invalid request payload" statusBadRequest)
  | some creds =>
    match r.bcryptHash with
    | none => (s, httpError "Failed to create user" statusInternalServerError)
    | some hashedPassword =>
      ({ s with users := Function.update s.users creds.Username (some hashedPassword) },
        ⟨statusCreated, .empty⟩)

/-- The handler `SignIn`.  It only reads the store. -/
def SignIn (s : Store) (r : Request) : Store × Response :=
  match r.credsBody with
  | none => (s, httpError "Invalid request payload" statusBadRequest)
  | some creds =>
    match s.users creds.Username with
    | none => (s, httpError "Invalid username or password" statusUnauthorized)
    | some hashedPassword =>
      if !r.bcryptMatches hashedPassword creds.Password then
        (s, httpError "Invalid username or password" statusUnauthorized)
      else
        match r.signed with
        | none => (s, httpError "Failed to create token" statusInternalServerError)
        | some tokenString => (s, ⟨statusOK, .cookie tokenString (r.now + 300)⟩)

/-! ## Todo handlers (`main.go` lines 103-187) -/

/-- Lines 104-115 of `CreateTodo`, which run before the lock is taken: resolve the user,
decode the body, then read `len(store.todos[username])` and the clock.  The result is either
the response of an early return or the user and the todo that is going to be appended. -/
def createPrepare (s : Store) (r : Request) : Response ⊕ (String × Todo) :=
  let (resp, username) := getUsernameFromRequest r
  if username = "" then .inl resp
  else
    match r.todoBody with
    | none => .inl (httpError "Invalid request payload" statusBadRequest)
    | some todo =>
      .inr (username,
        { todo with ID := ((s.todos username).length : Int) + 1, CreatedAt := r.now })

/-- Lines 117-119 of `CreateTodo`, the region under `store.Lock()`:
`store.todos[username] = append(store.todos[username], todo)`. -/
def createCommit (s : Store) (username : String) (todo : Todo) : Store :=
  { s with todos := Function.update s.todos username (s.todos username ++ [todo]) }

/-- The handler `CreateTodo`, run without interference from other requests. -/
def CreateTodo (s : Store) (r : Request) : Store × Response :=
  match createPrepare s r with
  | .inl resp => (s, resp)
  | .inr (username, todo) => (createCommit s username todo, ⟨statusCreated, .todo todo⟩)

/-- The handler `GetTodos`. -/
def GetTodos (s : Store) (r : Request) : Store × Response :=
  let (resp, username) := getUsernameFromRequest r
  if username = "" then (s, resp)
  else (s, ⟨statusOK, .todos (s.todos username)⟩)

/-- The loop of `UpdateTodo` (lines 156-162): at the first entry whose rendered id equals
`id`, store `updatedTodo` at that index and stop.  `none` when the loop runs to its end. -/
def replaceFirst (id : String) (updatedTodo : Todo) : List Todo → Option (List Todo)
  | [] => none
  | todo :: rest =>
    if fmtD todo.ID = id then some (updatedTodo :: rest)
    else (replaceFirst id updatedTodo rest).map (todo :: ·)

/-- The loop of `DeleteTodo` (lines 178-184): at the first entry whose rendered id equals
`id`, store `append(list[:i], list[i+1:]...)` and stop.  `none` when the loop runs to its
end. -/
def removeFirst (id : String) : List Todo → Option (List Todo)
  | [] => none
  | todo :: rest =>
    if fmtD todo.ID = id then some rest
    else (removeFirst id rest).map (todo :: ·)

/-- The handler `UpdateTodo`. -/
def UpdateTodo (s : Store) (r : Request) : Store × Response :=
  let (resp, username) := getUsernameFromRequest r
  if username = "" then (s, resp)
  else
    match r.todoBody with
    | none => (s, httpError "Invalid request payload" statusBadRequest)
    | some updatedTodo =>
      match replaceFirst r.pathId updatedTodo (s.todos username) with
      | some todos =>
        ({ s with todos := Function.update s.todos username todos }, ⟨statusOK, .todo updatedTodo⟩)
      | none => (s, httpError "Todo not found" statusNotFound)

/-- The handler `DeleteTodo`. -/
def DeleteTodo (s : Store) (r : Request) : Store × Response :=
  let (resp, username) := getUsernameFromRequest r
  if username = "" then (s, resp)
  else
    match removeFirst r.pathId (s.todos username) with
    | some todos =>
      ({ s with todos := Function.update s.todos username todos }, ⟨statusNoContent, .empty⟩)
    | none => (s, httpError "Todo not found" statusNotFound)

/-! ## Requests used in examples -/

/-- A request carrying a token that verifies for `username`, with the given path id, body and
clock reading. -/
def authedRequest (username pathId : String) (body : Option Todo) (now : Nat) : Request where
  cookie := .found "tok"
  parsed := ⟨none, true, username⟩
  todoBody := body
  credsBody := none
  bcryptHash := none
  bcryptMatches := fun _ _ => false
  signed := none
  pathId := pathId
  now := now

/-! ## The router and sequential executions (`main.go` lines 220-233) -/

/-- The six routes registered in `main`. -/
inductive Op where
  | signUp
  | signIn
  | createTodo
  | getTodos
  | updateTodo
  | deleteTodo
deriving DecidableEq, Repr

/-- The handler the router dispatches to. -/
def handle : Op → Store → Request → Store × Response
  | .signUp => SignUp
  | .signIn => SignIn
  | .createTodo => CreateTodo
  | .getTodos => GetTodos
  | .updateTodo => UpdateTodo
  | .deleteTodo => DeleteTodo

/-- The store after serving a sequence of requests one after the other. -/
def run (s : Store) : List (Op × Request) → Store
  | [] => s
  | (op, r) :: rest => run (handle op s r).1 rest

/-- A store the server can be in after serving some sequence of requests from start-up. -/
def Reachable (s : Store) : Prop := ∃ trace, run Store.empty trace = s

/-! ## Concurrent executions of `CreateTodo` -/

/-- Progress of one in-flight `CreateTodo` request: before line 104, between line 115 and the
`store.Lock()` of line 117 (holding the todo it built), or after its return. -/
inductive CreateThread where
  | start (r : Request)
  | waiting (username : String) (todo : Todo)
  | finished (resp : Response)

/-- One atomic step of a request: lines 104-115 (no lock held), or the locked region of lines
117-119 followed by the response. -/
def stepThread (s : Store) : CreateThread → Store × CreateThread
  | .start r =>
    match createPrepare s r with
    | .inl resp => (s, .finished resp)
    | .inr (username, todo) => (s, .waiting username todo)
  | .waiting username todo =>
    (createCommit s username todo, .finished ⟨statusCreated, .todo todo⟩)
  | .finished resp => (s, .finished resp)

/-- Runs the requests under a schedule: each entry names the request that takes the next
step. -/
def runSchedule (s : Store) (threads : List CreateThread) : List Nat → Store × List CreateThread
  | [] => (s, threads)
  | i :: rest =>
    match threads.get? i with
    | none => runSchedule s threads rest
    | some t => runSchedule (stepThread s t).1 (threads.set i (stepThread s t).2) rest

/-- The response of a request that has returned. -/
def CreateThread.response : CreateThread → Option Response
  | .finished resp => some resp
  | _ => none

/-! ## Numeric matching of the path id (the reading the spec recommends) -/

/-- Value of a decimal digit character, `none` for any other character. -/
def digitValue (c : Char) : Option Nat :=
  if 48 ≤ c.toNat ∧ c.toNat ≤ 57 then some (c.toNat - 48) else none

/-- Reads a run of decimal digits, most significant first, onto the accumulator. -/
def parseDigits (acc : Nat) : List Char → Option Nat
  | [] => some acc
  | c :: cs =>
    match digitValue c with
    | none => none
    | some d => parseDigits (10 * acc + d) cs

/-- Follows the spec's words "parse the path id to an integer": an optional sign followed
by at least one decimal digit, read in base ten. -/
def parsePathId (tok : String) : Option Int :=
  match tok.data with
  | [] => none
  | c :: cs =>
    if c = '-' then
      if cs = [] then none else (parseDigits 0 cs).map (fun n => -(n : Int))
    else if c = '+' then
      if cs = [] then none else (parseDigits 0 cs).map (fun n => (n : Int))
    else (parseDigits 0 (c :: cs)).map (fun n => (n : Int))

/-- A run of one or more decimal digits whose first digit is `0` only when it is the only
one. -/
def isCanonicalDigits : List Char → Bool
  | [] => false
  | c :: cs => (c :: cs).all (fun x => (digitValue x).isSome) && (c != '0' || cs.isEmpty)

/-- A path token that is a decimal numeral without leading zeros: canonical digits, or a minus
sign followed by canonical digits other than `0`. -/
def isDecimalNumeral (tok : String) : Bool :=
  match tok.data with
  | [] => false
  | c :: cs =>
    if c = '-' then isCanonicalDigits cs && cs != ['0']
    else isCanonicalDigits (c :: cs)

/-- Follows the spec's words "parse the path id to an integer and compare numerically": the
scan of `UpdateTodo` with the numeric match in place of the string match. -/
def replaceFirstNumeric (id : String) (updatedTodo : Todo) : List Todo → Option (List Todo)
  | [] => none
  | todo :: rest =>
    if parsePathId id = some todo.ID then some (updatedTodo :: rest)
    else (replaceFirstNumeric id updatedTodo rest).map (todo :: ·)

/-- Follows the spec's words "parse the path id to an integer and compare numerically": the
scan of `DeleteTodo` with the numeric match in place of the string match. -/
def removeFirstNumeric (id : String) : List Todo → Option (List Todo)
  | [] => none
  | todo :: rest =>
    if parsePathId id = some todo.ID then some rest
    else (removeFirstNumeric id rest).map (todo :: ·)

/-! ## Auxiliary notions used in the statements -/

/-- Whether serving the request in store `s` can be trusted not to put a second copy of an id
into a list.  Only two kinds of request fail the test: a create that passes authentication and
decoding while an entry with id `len + 1` is already stored for its user, and an update that
passes authentication and decoding, finds a first matching entry `old`, and carries a body id
that differs from `old.ID` and is the id of a stored entry of its user. -/
def keepsIdsUnique (s : Store) : Op × Request → Bool
  | (.createTodo, r) =>
    if (getUsernameFromRequest r).2 = "" then true
    else
      match r.todoBody with
      | none => true
      | some _ =>
        !((s.todos (getUsernameFromRequest r).2).map Todo.ID).contains
          (((s.todos (getUsernameFromRequest r).2).length : Int) + 1)
  | (.updateTodo, r) =>
    if (getUsernameFromRequest r).2 = "" then true
    else
      match r.todoBody with
      | none => true
      | some t =>
        match (s.todos (getUsernameFromRequest r).2).find?
            (fun x => decide (fmtD x.ID = r.pathId)) with
        | none => true
        | some old =>
          decide (t.ID = old.ID) ||
            !((s.todos (getUsernameFromRequest r).2).map Todo.ID).contains t.ID
  | _ => true

/-- Whether every request of the sequence passes `keepsIdsUnique` in the store it is served
in, the requests being served one after the other from `s`. -/
def keepsIdsUniqueAlong (s : Store) : List (Op × Request) → Bool
  | [] => true
  | (op, r) :: rest => keepsIdsUnique s (op, r) && keepsIdsUniqueAlong (handle op s r).1 rest

/-- The entries appended by a run of creates that all pass authentication and decoding, when
the list held `base` entries before the first of them. -/
def createdTodos (base : Nat) : List Request → List Todo
  | [] => []
  | r :: rs =>
    match r.todoBody with
    | some t => { t with ID := (base : Int) + 1, CreatedAt := r.now } :: createdTodos (base + 1) rs
    | none => createdTodos base rs

/-- Three creates, the delete of id 2 and one more create, all by `alice`. -/
def duplicateIdTrace : List (Op × Request) :=
  [(Op.createTodo, authedRequest "alice" "" (some ⟨0, "A", false, 0⟩) 1),
   (Op.createTodo, authedRequest "alice" "" (some ⟨0, "B", false, 0⟩) 2),
   (Op.createTodo, authedRequest "alice" "" (some ⟨0, "C", false, 0⟩) 3),
   (Op.deleteTodo, authedRequest "alice" "2" none 4),
   (Op.createTodo, authedRequest "alice" "" (some ⟨0, "D", false, 0⟩) 5)]

/-- Two `CreateTodo` requests by `alice` that are in flight at the same time. -/
def twoCreates : List CreateThread :=
  [.start (authedRequest "alice" "" (some ⟨0, "A", false, 0⟩) 10),
   .start (authedRequest "alice" "" (some ⟨0, "B", false, 0⟩) 11)]

/-- A request whose token is rejected by `jwt.ParseWithClaims` because its `exp` claim is in
the past: the library reports this as a `*jwt.ValidationError` with the expired bit set. -/
def expiredTokenRequest : Request :=
  { authedRequest "alice" "" none 0 with
    parsed := ⟨some (.validationError validationErrorExpired), false, "alice"⟩ }

/-- A request whose token fails the HMAC check: `jwt.ParseWithClaims` reports this as a
`*jwt.ValidationError` with the signature bit set (the sentinel is its `Inner` field). -/
def tamperedTokenRequest : Request :=
  { authedRequest "alice" "" none 0 with
    parsed := ⟨some (.validationError validationErrorSignatureInvalid), false, "alice"⟩ }

/-- A sign-up or sign-in request with the given credentials, bcrypt results and signed
token. -/
def credsRequest (creds : Credentials) (hash : Option String) (ok : Bool)
    (signed : Option String) (now : Nat) : Request where
  cookie := .errNoCookie
  parsed := ⟨none, false, ""⟩
  todoBody := none
  credsBody := some creds
  bcryptHash := hash
  bcryptMatches := fun _ _ => ok
  signed := signed
  pathId := ""
  now := now

/-! ## Basic facts about the handlers -/

theorem CreateTodo_eq (s : Store) (r : Request) :
    CreateTodo s r =
      if (getUsernameFromRequest r).2 = "" then (s, (getUsernameFromRequest r).1)
      else match r.todoBody with
        | none => (s, httpError "Invalid request payload" statusBadRequest)
        | some todo =>
          (createCommit s (getUsernameFromRequest r).2
              { todo with ID := ((s.todos (getUsernameFromRequest r).2).length : Int) + 1,
                          CreatedAt := r.now },
            ⟨statusCreated, .todo
              { todo with ID := ((s.todos (getUsernameFromRequest r).2).length : Int) + 1,
                          CreatedAt := r.now }⟩) := by
  unfold CreateTodo createPrepare
  rcases getUsernameFromRequest r with ⟨resp, u⟩
  by_cases hu : u = ""
  · simp [hu]
  · cases hb : r.todoBody <;> simp [hu]

theorem GetTodos_eq (s : Store) (r : Request) :
    GetTodos s r =
      if (getUsernameFromRequest r).2 = "" then (s, (getUsernameFromRequest r).1)
      else (s, ⟨statusOK, .todos (s.todos (getUsernameFromRequest r).2)⟩) := by
  unfold GetTodos
  rcases getUsernameFromRequest r with ⟨resp, u⟩
  rfl

theorem UpdateTodo_eq (s : Store) (r : Request) :
    UpdateTodo s r =
      if (getUsernameFromRequest r).2 = "" then (s, (getUsernameFromRequest r).1)
      else match r.todoBody with
        | none => (s, httpError "Invalid request payload" statusBadRequest)
        | some updatedTodo =>
          match replaceFirst r.pathId updatedTodo (s.todos (getUsernameFromRequest r).2) with
          | some todos =>
            ({ s with todos := Function.update s.todos (getUsernameFromRequest r).2 todos },
              ⟨statusOK, .todo updatedTodo⟩)
          | none => (s, httpError "Todo not found" statusNotFound) := by
  unfold UpdateTodo
  rcases getUsernameFromRequest r with ⟨resp, u⟩
  rfl

theorem DeleteTodo_eq (s : Store) (r : Request) :
    DeleteTodo s r =
      if (getUsernameFromRequest r).2 = "" then (s, (getUsernameFromRequest r).1)
      else match removeFirst r.pathId (s.todos (getUsernameFromRequest r).2) with
        | some todos =>
          ({ s with todos := Function.update s.todos (getUsernameFromRequest r).2 todos },
            ⟨statusNoContent, .empty⟩)
        | none => (s, httpError "Todo not found" statusNotFound) := by
  unfold DeleteTodo
  rcases getUsernameFromRequest r with ⟨resp, u⟩
  rfl

/-- A list with an entry matching `id` splits at the first such entry. -/
theorem exists_first_match (id : String) (l : List Todo)
    (h : ∃ t ∈ l, fmtD t.ID = id) :
    ∃ pre old post, l = pre ++ old :: post ∧ (∀ x ∈ pre, fmtD x.ID ≠ id) ∧ fmtD old.ID = id := by
  induction l with
  | nil => simp at h
  | cons a l ih =>
    by_cases ha : fmtD a.ID = id
    · exact ⟨[], a, l, rfl, by simp, ha⟩
    · have h' : ∃ t ∈ l, fmtD t.ID = id := by
        rcases h with ⟨t, ht, hm⟩
        rcases List.mem_cons.mp ht with rfl | ht
        · exact absurd hm ha
        · exact ⟨t, ht, hm⟩
      rcases ih h' with ⟨pre, old, post, hl, hpre, hold⟩
      refine ⟨a :: pre, old, post, by simp [hl], ?_, hold⟩
      intro x hx
      rcases List.mem_cons.mp hx with rfl | hx
      · exact ha
      · exact hpre x hx

theorem replaceFirst_eq_none (id : String) (new : Todo) (l : List Todo)
    (h : ∀ t ∈ l, fmtD t.ID ≠ id) : replaceFirst id new l = none := by
  induction l with
  | nil => rfl
  | cons a l ih =>
    have ha : fmtD a.ID ≠ id := h a (by simp)
    have hl : replaceFirst id new l = none := ih (fun t ht => h t (by simp [ht]))
    simp [replaceFirst, ha, hl]

theorem replaceFirst_split (id : String) (new old : Todo) (pre post : List Todo)
    (hpre : ∀ x ∈ pre, fmtD x.ID ≠ id) (hold : fmtD old.ID = id) :
    replaceFirst id new (pre ++ old :: post) = some (pre ++ new :: post) := by
  induction pre with
  | nil => simp [replaceFirst, hold]
  | cons a pre ih =>
    have ha : fmtD a.ID ≠ id := hpre a (by simp)
    have hl := ih (fun x hx => hpre x (by simp [hx]))
    simp [replaceFirst, ha, hl]

theorem removeFirst_eq_none (id : String) (l : List Todo)
    (h : ∀ t ∈ l, fmtD t.ID ≠ id) : removeFirst id l = none := by
  induction l with
  | nil => rfl
  | cons a l ih =>
    have ha : fmtD a.ID ≠ id := h a (by simp)
    have hl : removeFirst id l = none := ih (fun t ht => h t (by simp [ht]))
    simp [removeFirst, ha, hl]

theorem removeFirst_split (id : String) (old : Todo) (pre post : List Todo)
    (hpre : ∀ x ∈ pre, fmtD x.ID ≠ id) (hold : fmtD old.ID = id) :
    removeFirst id (pre ++ old :: post) = some (pre ++ post) := by
  induction pre with
  | nil => simp [removeFirst, hold]
  | cons a pre ih =>
    have ha : fmtD a.ID ≠ id := hpre a (by simp)
    have hl := ih (fun x hx => hpre x (by simp [hx]))
    simp [removeFirst, ha, hl]

theorem SignUp_todos (s : Store) (r : Request) : (SignUp s r).1.todos = s.todos := by
  unfold SignUp
  cases r.credsBody <;> cases r.bcryptHash <;> rfl

theorem SignIn_store (s : Store) (r : Request) : (SignIn s r).1 = s := by
  unfold SignIn
  cases r.credsBody with
  | none => rfl
  | some creds =>
    simp only
    cases s.users creds.Username with
    | none => rfl
    | some hp =>
      simp only
      split
      · rfl
      · cases r.signed <;> rfl

theorem GetTodos_store (s : Store) (r : Request) : (GetTodos s r).1 = s := by
  rw [GetTodos_eq]
  split <;> rfl

theorem getUsernameFromRequest_cases (q : Request) :
    getUsernameFromRequest q = (httpError "Unauthorized" statusUnauthorized, "") ∨
    getUsernameFromRequest q = (httpError "Bad request" statusBadRequest, "") ∨
    getUsernameFromRequest q = (noResponse, q.parsed.username) := by
  unfold getUsernameFromRequest
  cases q.cookie with
  | errNoCookie => exact Or.inl rfl
  | errOther => exact Or.inr (Or.inl rfl)
  | found v =>
    simp only
    cases q.parsed.err with
    | some e =>
      cases e with
      | errSignatureInvalid => exact Or.inl rfl
      | validationError n => exact Or.inr (Or.inl rfl)
    | none =>
      simp only
      cases q.parsed.valid with
      | false => exact Or.inl rfl
      | true => exact Or.inr (Or.inr rfl)

/-! ## Decimal rendering and parsing -/

theorem digitValue_digitChar (d : Nat) (h : d < 10) : digitValue (Nat.digitChar d) = some d := by
  interval_cases d <;> rfl

theorem digitChar_digitValue (c : Char) (d : Nat) (h : digitValue c = some d) :
    d < 10 ∧ Nat.digitChar d = c := by
  unfold digitValue at h
  split at h
  · rename_i hc
    simp at h
    subst h
    refine ⟨by omega, ?_⟩
    have hcn : c = Char.ofNat c.toNat := (Char.ofNat_toNat c).symm
    obtain ⟨h1, h2⟩ := hc
    generalize c.toNat = k at *
    subst hcn
    interval_cases k <;> rfl
  · simp at h

theorem parseDigits_append (acc : Nat) (xs ys : List Char) :
    parseDigits acc (xs ++ ys) = (parseDigits acc xs).bind (fun a => parseDigits a ys) := by
  induction xs generalizing acc with
  | nil => rfl
  | cons c cs ih =>
    simp only [List.cons_append, parseDigits]
    cases digitValue c with
    | none => rfl
    | some d => exact ih _

theorem toDigitsCore_append (f n : Nat) (ds : List Char) :
    Nat.toDigitsCore 10 f n ds = Nat.toDigitsCore 10 f n [] ++ ds := by
  induction f generalizing n ds with
  | zero => simp [Nat.toDigitsCore]
  | succ f ih =>
    simp only [Nat.toDigitsCore]
    split
    · simp
    · rw [ih (n / 10) (_ :: ds), ih (n / 10) [_]]
      simp

theorem toDigitsCore_fuel (f g n : Nat) (ds : List Char) (hf : n < f) (hg : n < g) :
    Nat.toDigitsCore 10 f n ds = Nat.toDigitsCore 10 g n ds := by
  induction f generalizing g n ds with
  | zero => omega
  | succ f ih =>
    cases g with
    | zero => omega
    | succ g =>
      simp only [Nat.toDigitsCore]
      split
      · rfl
      · rename_i hn
        apply ih <;> omega

theorem toDigits_small (n : Nat) (h : n < 10) : Nat.toDigits 10 n = [Nat.digitChar n] := by
  simp only [Nat.toDigits, Nat.toDigitsCore]
  have h0 : n / 10 = 0 := by omega
  have h1 : n % 10 = n := by omega
  simp [h0, h1]

theorem toDigits_large (n : Nat) (h : 10 ≤ n) :
    Nat.toDigits 10 n = Nat.toDigits 10 (n / 10) ++ [Nat.digitChar (n % 10)] := by
  have h0 : n / 10 ≠ 0 := by omega
  have e1 : Nat.toDigits 10 n = Nat.toDigitsCore 10 n (n / 10) [Nat.digitChar (n % 10)] := by
    show Nat.toDigitsCore 10 (n + 1) n [] = _
    simp only [Nat.toDigitsCore, h0, if_false]
  rw [e1, toDigitsCore_append, toDigitsCore_fuel n (n / 10 + 1) (n / 10) [] (by omega) (by omega)]
  rfl

theorem parseDigits_toDigits (n : Nat) : parseDigits 0 (Nat.toDigits 10 n) = some n := by
  induction n using Nat.strongRecOn with
  | _ n ih =>
    by_cases h : n < 10
    · rw [toDigits_small n h]
      simp [parseDigits, digitValue_digitChar n h]
    · rw [toDigits_large n (by omega), parseDigits_append, ih (n / 10) (by omega)]
      simp only [Option.some_bind, parseDigits, digitValue_digitChar (n % 10) (by omega)]
      congr 1
      omega


theorem toDigits_parseDigits (cs : List Char) (hne : cs ≠ [])
    (hdig : ∀ x ∈ cs, (digitValue x).isSome = true)
    (hlead : cs.head? = some '0' → cs = ['0']) :
    ∃ n, parseDigits 0 cs = some n ∧ Nat.toDigits 10 n = cs := by
  induction cs using List.reverseRecOn with
  | nil => exact absurd rfl hne
  | append_singleton cs c ih =>
    obtain ⟨d, hd⟩ := Option.isSome_iff_exists.mp (hdig c (by simp))
    obtain ⟨hd10, hdc⟩ := digitChar_digitValue c d hd
    by_cases hcs : cs = []
    · subst hcs
      refine ⟨d, by simp [parseDigits, hd], ?_⟩
      rw [toDigits_small d hd10, hdc]
      rfl
    · obtain ⟨a, rest, rfl⟩ := List.exists_cons_of_ne_nil hcs
      have ha : a ≠ '0' := by
        intro h0
        have := hlead (by simp [h0])
        simp at this
      obtain ⟨m, hm, hmd⟩ := ih hcs (fun x hx => hdig x (by simp at hx ⊢; tauto))
        (by intro h; simp at h; exact absurd h ha)
      have hm0 : m ≠ 0 := by
        intro h0
        subst h0
        have : Nat.toDigits 10 0 = ['0'] := rfl
        rw [this] at hmd
        simp at hmd
        exact ha hmd.1.symm
      refine ⟨10 * m + d, ?_, ?_⟩
      · rw [parseDigits_append, hm]
        simp [parseDigits, hd]
      · rw [toDigits_large _ (by omega)]
        have e1 : (10 * m + d) / 10 = m := by omega
        have e2 : (10 * m + d) % 10 = d := by omega
        rw [e1, e2, hmd, hdc]

theorem digitValue_minus : digitValue '-' = none := by rfl
theorem digitValue_plus : digitValue '+' = none := by rfl

theorem fmtD_data_ofNat (n : Nat) : (fmtD (Int.ofNat n)).data = Nat.toDigits 10 n := rfl

theorem fmtD_data_negSucc (n : Nat) :
    (fmtD (Int.negSucc n)).data = '-' :: Nat.toDigits 10 (n + 1) := by
  show ("-" ++ Nat.repr (n + 1)).data = _
  rw [String.data_append]
  rfl

/-- The rendering of an id determines the id. -/
theorem fmtD_injective (a b : Int) (h : fmtD a = fmtD b) : a = b := by
  have hd : (fmtD a).data = (fmtD b).data := by rw [h]
  cases a with
  | ofNat n =>
    cases b with
    | ofNat m =>
      rw [fmtD_data_ofNat, fmtD_data_ofNat] at hd
      have := parseDigits_toDigits n
      rw [hd, parseDigits_toDigits m] at this
      simp at this
      rw [this]
    | negSucc m =>
      rw [fmtD_data_ofNat, fmtD_data_negSucc] at hd
      have := parseDigits_toDigits n
      rw [hd] at this
      simp [parseDigits, digitValue_minus] at this
  | negSucc n =>
    cases b with
    | ofNat m =>
      rw [fmtD_data_ofNat, fmtD_data_negSucc] at hd
      have := parseDigits_toDigits m
      rw [← hd] at this
      simp [parseDigits, digitValue_minus] at this
    | negSucc m =>
      rw [fmtD_data_negSucc, fmtD_data_negSucc] at hd
      have hd2 : Nat.toDigits 10 (n + 1) = Nat.toDigits 10 (m + 1) := by simpa using hd
      have := parseDigits_toDigits (n + 1)
      rw [hd2, parseDigits_toDigits (m + 1)] at this
      simp at this
      rw [this]

theorem canonical_digits_roundtrip (cs : List Char) (h : isCanonicalDigits cs = true) :
    ∃ n, parseDigits 0 cs = some n ∧ Nat.toDigits 10 n = cs := by
  cases cs with
  | nil => simp [isCanonicalDigits] at h
  | cons c cs =>
    simp only [isCanonicalDigits, Bool.and_eq_true, List.all_eq_true, Bool.or_eq_true,
      bne_iff_ne, ne_eq, List.isEmpty_iff] at h
    obtain ⟨hdig, hlead⟩ := h
    refine toDigits_parseDigits (c :: cs) (by simp) hdig ?_
    intro h0
    simp at h0
    rcases hlead with h1 | h1
    · exact absurd h0 h1
    · simp [h0, h1]

theorem canonical_digits_head (c : Char) (cs : List Char)
    (h : isCanonicalDigits (c :: cs) = true) : (digitValue c).isSome = true := by
  simp only [isCanonicalDigits, Bool.and_eq_true, List.all_eq_true] at h
  exact h.1 c (by simp)

/-- On a decimal numeral without leading zeros, rendering the id and comparing strings is the
same test as parsing the token and comparing integers. -/
theorem fmtD_eq_iff_parse (id : Int) (tok : String) (h : isDecimalNumeral tok = true) :
    fmtD id = tok ↔ parsePathId tok = some id := by
  unfold isDecimalNumeral at h
  cases htd : tok.data with
  | nil => rw [htd] at h; simp at h
  | cons c cs =>
    rw [htd] at h
    by_cases hcm : c = '-'
    · subst hcm
      simp only [if_true, Bool.and_eq_true, bne_iff_ne, ne_eq] at h
      obtain ⟨hcan, hnz⟩ := h
      obtain ⟨n, hn, hnd⟩ := canonical_digits_roundtrip cs hcan
      have hcs : cs ≠ [] := by
        intro e; rw [e] at hcan; simp [isCanonicalDigits] at hcan
      have hn0 : n ≠ 0 := by
        intro e
        subst e
        exact hnz hnd.symm
      have hparse : parsePathId tok = some (-(n : Int)) := by
        unfold parsePathId
        rw [htd]
        simp [hcs, hn]
      rw [hparse]
      constructor
      · intro hf
        have hd : (fmtD id).data = '-' :: cs := by rw [hf, htd]
        cases id with
        | ofNat k =>
          rw [fmtD_data_ofNat] at hd
          have := parseDigits_toDigits k
          rw [hd] at this
          simp [parseDigits, digitValue_minus] at this
        | negSucc k =>
          rw [fmtD_data_negSucc] at hd
          have hd2 : Nat.toDigits 10 (k + 1) = cs := by simpa using hd
          have := parseDigits_toDigits (k + 1)
          rw [hd2, hn] at this
          simp only [Option.some.injEq] at this
          subst this
          rfl
      · intro hid
        simp only [Option.some.injEq] at hid
        obtain ⟨k, rfl⟩ := Nat.exists_eq_succ_of_ne_zero hn0
        have hidk : id = Int.negSucc k := by rw [← hid]; rfl
        subst hidk
        apply String.ext
        rw [fmtD_data_negSucc, hnd, htd]
    · simp only [if_neg hcm] at h
      have hc : (digitValue c).isSome = true := canonical_digits_head c cs h
      have hcp : c ≠ '+' := by
        intro e; rw [e, digitValue_plus] at hc; simp at hc
      have hparse : parsePathId tok = (parseDigits 0 (c :: cs)).map (fun n => (n : Int)) := by
        unfold parsePathId
        rw [htd]
        simp [hcm, hcp]
      obtain ⟨n, hn, hnd⟩ := canonical_digits_roundtrip (c :: cs) h
      rw [hparse, hn]
      show fmtD id = tok ↔ some (n : Int) = some id
      constructor
      · intro hf
        have hd : (fmtD id).data = c :: cs := by rw [hf, htd]
        cases id with
        | ofNat k =>
          rw [fmtD_data_ofNat] at hd
          have := parseDigits_toDigits k
          rw [hd, hn] at this
          simp at this
          simp [this]
        | negSucc k =>
          rw [fmtD_data_negSucc] at hd
          simp at hd
          exact absurd hd.1.symm hcm
      · intro hid
        simp at hid
        subst hid
        apply String.ext
        show (fmtD (Int.ofNat n)).data = tok.data
        rw [fmtD_data_ofNat, hnd, htd]

/-- Every rendering of an integer is a decimal numeral without leading zeros. -/
theorem isDecimalNumeral_fmtD (id : Int) : isDecimalNumeral (fmtD id) = true := by
  have hcanon : ∀ n : Nat, isCanonicalDigits (Nat.toDigits 10 n) = true := by
    intro n
    induction n using Nat.strongRecOn with
    | _ n ih =>
      by_cases h : n < 10
      · rw [toDigits_small n h]
        interval_cases n <;> rfl
      · have hprev := ih (n / 10) (by omega)
        rw [toDigits_large n (by omega)]
        have hne : n / 10 ≠ 0 := by omega
        have hd := digitValue_digitChar (n % 10) (by omega)
        cases hq : Nat.toDigits 10 (n / 10) with
        | nil => rw [hq] at hprev; simp [isCanonicalDigits] at hprev
        | cons c cs =>
          rw [hq] at hprev
          simp only [isCanonicalDigits, Bool.and_eq_true, List.all_eq_true, Bool.or_eq_true,
            bne_iff_ne, ne_eq, List.isEmpty_iff] at hprev
          obtain ⟨hdig, hlead⟩ := hprev
          have hc0 : c ≠ '0' := by
            rcases hlead with h1 | h1
            · exact h1
            · intro e
              subst e
              subst h1
              have := parseDigits_toDigits (n / 10)
              rw [hq] at this
              simp [parseDigits, digitValue] at this
              exact hne this.symm
          simp only [List.cons_append, isCanonicalDigits, Bool.and_eq_true, List.all_eq_true,
            Bool.or_eq_true, bne_iff_ne, ne_eq]
          refine ⟨?_, Or.inl hc0⟩
          intro x hx
          rcases List.mem_cons.mp hx with rfl | hx
          · exact hdig x (by simp)
          · rcases List.mem_append.mp hx with hx | hx
            · exact hdig x (by simp [hx])
            · simp at hx
              subst hx
              simp [hd]
  cases id with
  | ofNat n =>
    unfold isDecimalNumeral
    rw [fmtD_data_ofNat]
    have hc := hcanon n
    cases hq : Nat.toDigits 10 n with
    | nil => rw [hq] at hc; simp [isCanonicalDigits] at hc
    | cons c cs =>
      rw [hq] at hc
      have hcd := canonical_digits_head c cs hc
      have hcm : c ≠ '-' := by
        intro e; rw [e, digitValue_minus] at hcd; simp at hcd
      simp only [if_neg hcm, hc]
  | negSucc n =>
    unfold isDecimalNumeral
    rw [fmtD_data_negSucc]
    simp only [if_true, Bool.and_eq_true, bne_iff_ne, ne_eq]
    refine ⟨hcanon (n + 1), ?_⟩
    intro e
    have := parseDigits_toDigits (n + 1)
    rw [e] at this
    simp [parseDigits, digitValue] at this

/-! ## Sequential creates -/

theorem createdTodos_spec (base : Nat) (rs : List Request)
    (hrs : ∀ r ∈ rs, r.todoBody.isSome = true) :
    (createdTodos base rs).length = rs.length ∧
    ∀ i (hi : i < rs.length), ∃ t, (rs.get ⟨i, hi⟩).todoBody = some t ∧
      (createdTodos base rs).get? i
        = some ⟨(base : Int) + i + 1, t.Title, t.Completed, (rs.get ⟨i, hi⟩).now⟩ := by
  induction rs generalizing base with
  | nil => exact ⟨rfl, fun i hi => absurd hi (by simp)⟩
  | cons r rs ih =>
    obtain ⟨t, ht⟩ := Option.isSome_iff_exists.mp (hrs r (by simp))
    obtain ⟨hlen, hget⟩ := ih (base + 1) (fun x hx => hrs x (by simp [hx]))
    refine ⟨by simp [createdTodos, ht, hlen], ?_⟩
    intro i hi
    cases i with
    | zero => exact ⟨t, ht, by simp [createdTodos, ht]⟩
    | succ i =>
      obtain ⟨t', ht', hg⟩ := hget i (by simpa using hi)
      refine ⟨t', by simpa using ht', ?_⟩
      simp only [createdTodos, ht, List.get?_cons_succ, hg, List.get_cons_succ]
      congr 2
      push_cast
      ring

theorem run_creates (s : Store) (u : String) (rs : List Request) (hu : u ≠ "")
    (hrs : ∀ r ∈ rs, (getUsernameFromRequest r).2 = u ∧ r.todoBody.isSome = true) :
    (run s (rs.map (fun r => (Op.createTodo, r)))).todos u
      = s.todos u ++ createdTodos (s.todos u).length rs := by
  induction rs generalizing s with
  | nil => simp [run, createdTodos]
  | cons r rs ih =>
    obtain ⟨hr, hb⟩ := hrs r (by simp)
    obtain ⟨t, ht⟩ := Option.isSome_iff_exists.mp hb
    have hstep : ((CreateTodo s r).1).todos u
        = s.todos u ++ [{ t with ID := ((s.todos u).length : Int) + 1, CreatedAt := r.now }] := by
      rw [CreateTodo_eq, hr, if_neg hu, ht]
      simp [createCommit]
    simp only [List.map_cons, run, handle]
    rw [ih (CreateTodo s r).1 (fun x hx => hrs x (by simp [hx])), hstep]
    simp [createdTodos, ht]

/-- C1: starting from an empty list of user `u`, `n` successive creates that pass
authentication as `u` and decode their body leave exactly `n` todos, which `GetTodos`
returns in creation order; the `i`-th (counting from 0) carries the title, the completed
flag and the clock reading of the `i`-th request and has id `i + 1`, whatever id the body
carried. -/
theorem create_then_list_ids_in_order (s : Store) (u : String) (rs : List Request) (q : Request)
    (hu : u ≠ "") (hempty : s.todos u = [])
    (hrs : ∀ r ∈ rs, (getUsernameFromRequest r).2 = u ∧ r.todoBody.isSome = true)
    (hq : (getUsernameFromRequest q).2 = u) :
    ∃ listed,
      (GetTodos (run s (rs.map (fun r => (Op.createTodo, r)))) q).2 = ⟨statusOK, .todos listed⟩ ∧
      listed = (run s (rs.map (fun r => (Op.createTodo, r)))).todos u ∧
      listed.length = rs.length ∧
      ∀ i (hi : i < rs.length), ∃ t, (rs.get ⟨i, hi⟩).todoBody = some t ∧
        listed.get? i = some ⟨(i : Int) + 1, t.Title, t.Completed, (rs.get ⟨i, hi⟩).now⟩ := by
  refine ⟨_, ?_, rfl, ?_⟩
  · rw [GetTodos_eq, hq, if_neg hu]
  · rw [run_creates s u rs hu hrs, hempty]
    obtain ⟨hlen, hget⟩ := createdTodos_spec 0 rs (fun r hr => (hrs r hr).2)
    refine ⟨by simpa using hlen, ?_⟩
    intro i hi
    obtain ⟨t, ht, hg⟩ := hget i hi
    exact ⟨t, ht, by simpa using hg⟩

theorem create_then_list_ids_in_order_witness :
    ∃ listed,
      (GetTodos (run Store.empty
        ([authedRequest "alice" "" (some ⟨9, "A", false, 0⟩) 10,
          authedRequest "alice" "" (some ⟨9, "B", true, 0⟩) 11,
          authedRequest "alice" "" (some ⟨0, "C", false, 0⟩) 12].map
            (fun r => (Op.createTodo, r)))) (authedRequest "alice" "" none 13)).2
        = ⟨statusOK, .todos listed⟩ ∧
      listed = (run Store.empty
        ([authedRequest "alice" "" (some ⟨9, "A", false, 0⟩) 10,
          authedRequest "alice" "" (some ⟨9, "B", true, 0⟩) 11,
          authedRequest "alice" "" (some ⟨0, "C", false, 0⟩) 12].map
            (fun r => (Op.createTodo, r)))).todos "alice" ∧
      listed.length = 3 ∧
      listed.map Todo.ID = [1, 2, 3] ∧ listed.map Todo.Title = ["A", "B", "C"] := by
  obtain ⟨listed, h1, h2, h3, _⟩ := create_then_list_ids_in_order Store.empty "alice"
    [authedRequest "alice" "" (some ⟨9, "A", false, 0⟩) 10,
      authedRequest "alice" "" (some ⟨9, "B", true, 0⟩) 11,
      authedRequest "alice" "" (some ⟨0, "C", false, 0⟩) 12]
    (authedRequest "alice" "" none 13) (by decide) rfl (by decide) (by decide)
  refine ⟨listed, h1, h2, h3, ?_⟩
  subst h2
  decide

/-! ## Update and delete -/

/-- C2: for a request that passes authentication as `u` and decodes its body to `new`:
when no stored id of `u` renders to the path id, `UpdateTodo` answers 404 and leaves the
store as it was; otherwise the list of `u` splits at the first matching entry as
`pre ++ old :: post`, the new list is `pre ++ new :: post` (the whole caller-supplied
record, id and createdAt included), its length is unchanged, every other user's list and
the credentials are unchanged, the response is 200 with `new`, and `GetTodos` afterwards
returns the new list. -/
theorem update_replaces_first_match (s : Store) (r : Request) (u : String) (new : Todo)
    (hr : (getUsernameFromRequest r).2 = u) (hu : u ≠ "") (hb : r.todoBody = some new) :
    ((∀ t ∈ s.todos u, fmtD t.ID ≠ r.pathId) →
      UpdateTodo s r = (s, httpError "Todo not found" statusNotFound)) ∧
    ((∃ t ∈ s.todos u, fmtD t.ID = r.pathId) →
      ∃ pre old post,
        s.todos u = pre ++ old :: post ∧
        (∀ x ∈ pre, fmtD x.ID ≠ r.pathId) ∧ fmtD old.ID = r.pathId ∧
        (UpdateTodo s r).1.todos u = pre ++ new :: post ∧
        ((UpdateTodo s r).1.todos u).length = (s.todos u).length ∧
        (∀ v, v ≠ u → (UpdateTodo s r).1.todos v = s.todos v) ∧
        (UpdateTodo s r).1.users = s.users ∧
        (UpdateTodo s r).2 = ⟨statusOK, .todo new⟩ ∧
        ∀ q, (getUsernameFromRequest q).2 = u →
          (GetTodos (UpdateTodo s r).1 q).2 = ⟨statusOK, .todos (pre ++ new :: post)⟩) := by
  constructor
  · intro hnone
    rw [UpdateTodo_eq, hr, if_neg hu, hb]
    simp only [replaceFirst_eq_none _ new _ hnone]
  · intro hsome
    obtain ⟨pre, old, post, hl, hpre, hold⟩ := exists_first_match _ _ hsome
    have hrep := replaceFirst_split r.pathId new old pre post hpre hold
    have hup : UpdateTodo s r =
        ({ s with todos := Function.update s.todos u (pre ++ new :: post) },
          ⟨statusOK, .todo new⟩) := by
      rw [UpdateTodo_eq, hr, if_neg hu, hb]
      simp only [hl, hrep]
    refine ⟨pre, old, post, hl, hpre, hold, ?_, ?_, ?_, ?_, ?_, ?_⟩
    · simp [hup]
    · simp [hup, hl]
    · intro v hv
      simp [hup, Function.update_noteq hv]
    · simp [hup]
    · simp [hup]
    · intro q hq
      rw [GetTodos_eq, hq, if_neg hu]
      simp [hup]

theorem update_replaces_first_match_witness :
    UpdateTodo Store.empty (authedRequest "alice" "999" (some ⟨5, "X", true, 0⟩) 3)
        = (Store.empty, httpError "Todo not found" statusNotFound) ∧
    (UpdateTodo
        (run Store.empty [(Op.createTodo, authedRequest "alice" "" (some ⟨0, "A", false, 0⟩) 1)])
        (authedRequest "alice" "1" (some ⟨7, "Z", true, 0⟩) 2)).2
      = ⟨statusOK, .todo ⟨7, "Z", true, 0⟩⟩ := by
  refine ⟨(update_replaces_first_match Store.empty
      (authedRequest "alice" "999" (some ⟨5, "X", true, 0⟩) 3) "alice" ⟨5, "X", true, 0⟩
      (by decide) (by decide) rfl).1 (by intro t ht; simp [Store.empty] at ht), ?_⟩
  obtain ⟨_, _, _, _, _, _, _, _, _, _, h, _⟩ :=
    (update_replaces_first_match
      (run Store.empty [(Op.createTodo, authedRequest "alice" "" (some ⟨0, "A", false, 0⟩) 1)])
      (authedRequest "alice" "1" (some ⟨7, "Z", true, 0⟩) 2) "alice" ⟨7, "Z", true, 0⟩
      (by decide) (by decide) rfl).2 ⟨⟨1, "A", false, 1⟩, by decide, by decide⟩
  exact h

/-- C3: for a request that passes authentication as `u`: when no stored id of `u` renders to
the path id, `DeleteTodo` answers 404 and leaves the store as it was; otherwise the list of
`u` splits at the first matching entry as `pre ++ old :: post`, the new list is
`pre ++ post` (so the entries after it, those with the same id included, move down by one
and keep their order), the length drops by exactly one, every other user's list and the
credentials are unchanged, and the response is 204. -/
theorem delete_removes_first_match (s : Store) (r : Request) (u : String)
    (hr : (getUsernameFromRequest r).2 = u) (hu : u ≠ "") :
    ((∀ t ∈ s.todos u, fmtD t.ID ≠ r.pathId) →
      DeleteTodo s r = (s, httpError "Todo not found" statusNotFound)) ∧
    ((∃ t ∈ s.todos u, fmtD t.ID = r.pathId) →
      ∃ pre old post,
        s.todos u = pre ++ old :: post ∧
        (∀ x ∈ pre, fmtD x.ID ≠ r.pathId) ∧ fmtD old.ID = r.pathId ∧
        (DeleteTodo s r).1.todos u = pre ++ post ∧
        ((DeleteTodo s r).1.todos u).length + 1 = (s.todos u).length ∧
        (∀ v, v ≠ u → (DeleteTodo s r).1.todos v = s.todos v) ∧
        (DeleteTodo s r).1.users = s.users ∧
        (DeleteTodo s r).2 = ⟨statusNoContent, .empty⟩) := by
  constructor
  · intro hnone
    rw [DeleteTodo_eq, hr, if_neg hu]
    simp only [removeFirst_eq_none _ _ hnone]
  · intro hsome
    obtain ⟨pre, old, post, hl, hpre, hold⟩ := exists_first_match _ _ hsome
    have hrem := removeFirst_split r.pathId old pre post hpre hold
    have hdel : DeleteTodo s r =
        ({ s with todos := Function.update s.todos u (pre ++ post) },
          ⟨statusNoContent, .empty⟩) := by
      rw [DeleteTodo_eq, hr, if_neg hu]
      simp only [hl, hrem]
    refine ⟨pre, old, post, hl, hpre, hold, ?_, ?_, ?_, ?_, ?_⟩
    · simp [hdel]
    · simp [hdel, hl]
      omega
    · intro v hv
      simp [hdel, Function.update_noteq hv]
    · simp [hdel]
    · simp [hdel]

theorem delete_removes_first_match_witness :
    DeleteTodo Store.empty (authedRequest "alice" "999" none 3)
        = (Store.empty, httpError "Todo not found" statusNotFound) ∧
    (DeleteTodo
        (run Store.empty [(Op.createTodo, authedRequest "alice" "" (some ⟨0, "A", false, 0⟩) 1)])
        (authedRequest "alice" "1" none 2)).2
      = ⟨statusNoContent, .empty⟩ := by
  refine ⟨(delete_removes_first_match Store.empty
      (authedRequest "alice" "999" none 3) "alice"
      (by decide) (by decide)).1 (by intro t ht; simp [Store.empty] at ht), ?_⟩
  obtain ⟨_, _, _, _, _, _, _, _, _, _, h⟩ :=
    (delete_removes_first_match
      (run Store.empty [(Op.createTodo, authedRequest "alice" "" (some ⟨0, "A", false, 0⟩) 1)])
      (authedRequest "alice" "1" none 2) "alice"
      (by decide) (by decide)).2 ⟨⟨1, "A", false, 1⟩, by decide, by decide⟩
  exact h

/-- C4: the id given by `CreateTodo` depends only on the current length.  When a delete for
user `u` succeeds on a list of length `k` (then `k ≥ 1`), the next create for `u` is answered
201 with a todo of id `k`, and that todo is appended after the entries the delete left.  In particular
three creates, the delete of id 2 and one more create leave the ids `[1, 3, 3]`. -/
theorem create_after_delete_reuses_length (s : Store) (d c : Request) (u : String) (t : Todo)
    (hd : (getUsernameFromRequest d).2 = u) (hc : (getUsernameFromRequest c).2 = u)
    (hu : u ≠ "") (hb : c.todoBody = some t)
    (hok : (DeleteTodo s d).2 = ⟨statusNoContent, .empty⟩) :
    1 ≤ (s.todos u).length ∧
    (CreateTodo (DeleteTodo s d).1 c).2
        = ⟨statusCreated, .todo ⟨((s.todos u).length : Int), t.Title, t.Completed, c.now⟩⟩ ∧
    (CreateTodo (DeleteTodo s d).1 c).1.todos u
        = (DeleteTodo s d).1.todos u
            ++ [⟨((s.todos u).length : Int), t.Title, t.Completed, c.now⟩] ∧
    ((run Store.empty duplicateIdTrace).todos "alice").map Todo.ID = [1, 3, 3] := by
  have hlen : ((DeleteTodo s d).1.todos u).length + 1 = (s.todos u).length := by
    by_cases hm : ∃ x ∈ s.todos u, fmtD x.ID = d.pathId
    · obtain ⟨_, _, _, _, _, _, _, h, _⟩ := (delete_removes_first_match s d u hd hu).2 hm
      exact h
    · have hnone := (delete_removes_first_match s d u hd hu).1
        (fun x hx hxe => hm ⟨x, hx, hxe⟩)
      rw [hnone] at hok
      have hne : httpError "Todo not found" statusNotFound ≠ ⟨statusNoContent, .empty⟩ := by
        decide
      exact absurd hok hne
  have hid : (((DeleteTodo s d).1.todos u).length : Int) + 1 = ((s.todos u).length : Int) := by
    exact_mod_cast hlen
  refine ⟨by omega, ?_, ?_, by decide⟩
  · rw [CreateTodo_eq, hc, if_neg hu, hb]
    simp [hid]
  · rw [CreateTodo_eq, hc, if_neg hu, hb]
    simp [createCommit, hid]

theorem create_after_delete_reuses_length_witness :
    (CreateTodo (DeleteTodo
        (run Store.empty
          [(Op.createTodo, authedRequest "alice" "" (some ⟨0, "A", false, 0⟩) 1),
           (Op.createTodo, authedRequest "alice" "" (some ⟨0, "B", false, 0⟩) 2),
           (Op.createTodo, authedRequest "alice" "" (some ⟨0, "C", false, 0⟩) 3)])
        (authedRequest "alice" "2" none 4)).1
      (authedRequest "alice" "" (some ⟨0, "D", false, 0⟩) 5)).2
      = ⟨statusCreated, .todo ⟨3, "D", false, 5⟩⟩ :=
  (create_after_delete_reuses_length
    (run Store.empty
      [(Op.createTodo, authedRequest "alice" "" (some ⟨0, "A", false, 0⟩) 1),
       (Op.createTodo, authedRequest "alice" "" (some ⟨0, "B", false, 0⟩) 2),
       (Op.createTodo, authedRequest "alice" "" (some ⟨0, "C", false, 0⟩) 3)])
    (authedRequest "alice" "2" none 4)
    (authedRequest "alice" "" (some ⟨0, "D", false, 0⟩) 5) "alice" ⟨0, "D", false, 0⟩
    (by decide) (by decide) (by decide) rfl (by decide)).2.1

/-! ## Invariants -/

theorem find_first_match (id : String) (pre post : List Todo) (old : Todo)
    (hpre : ∀ x ∈ pre, fmtD x.ID ≠ id) (hold : fmtD old.ID = id) :
    (pre ++ old :: post).find? (fun x => decide (fmtD x.ID = id)) = some old := by
  induction pre with
  | nil => simp [List.find?, hold]
  | cons a pre ih =>
    have ha : fmtD a.ID ≠ id := hpre a (by simp)
    simp only [List.cons_append, List.find?, ha, decide_False]
    exact ih (fun x hx => hpre x (by simp [hx]))

theorem DeleteTodo_sublist (s : Store) (r : Request) (u : String) :
    ((DeleteTodo s r).1.todos u).Sublist (s.todos u) := by
  rw [DeleteTodo_eq]
  split
  · exact List.Sublist.refl _
  · by_cases hm : ∃ y ∈ s.todos (getUsernameFromRequest r).2, fmtD y.ID = r.pathId
    · obtain ⟨pre, old, post, hl, hpre, hold⟩ := exists_first_match _ _ hm
      rw [hl, removeFirst_split r.pathId old pre post hpre hold]
      simp only
      by_cases huv : u = (getUsernameFromRequest r).2
      · subst huv
        rw [hl]
        simp
      · simp [Function.update_noteq huv]
    · rw [removeFirst_eq_none r.pathId _ (fun y hy hye => hm ⟨y, hy, hye⟩)]

/-- Replacing the middle element of a duplicate-free list keeps it duplicate-free exactly
when the new element is the old one or occurs nowhere in the list. -/
theorem nodup_replace_middle (pre post : List Int) (a b : Int)
    (h : (pre ++ a :: post).Nodup) :
    (pre ++ b :: post).Nodup ↔ (b = a ∨ b ∉ pre ++ a :: post) := by
  rw [List.nodup_middle, List.nodup_cons] at h ⊢
  obtain ⟨ha, hn⟩ := h
  constructor
  · rintro ⟨hb, _⟩
    by_cases hba : b = a
    · exact Or.inl hba
    · right
      intro hmem
      rcases List.mem_append.mp hmem with hp | hp
      · exact hb (List.mem_append.mpr (Or.inl hp))
      · rcases List.mem_cons.mp hp with hp | hp
        · exact hba hp
        · exact hb (List.mem_append.mpr (Or.inr hp))
  · rintro (hba | hb)
    · subst hba
      exact ⟨ha, hn⟩
    · refine ⟨?_, hn⟩
      intro hmem
      apply hb
      rcases List.mem_append.mp hmem with hp | hp
      · exact List.mem_append.mpr (Or.inl hp)
      · exact List.mem_append.mpr (Or.inr (List.mem_cons_of_mem _ hp))

theorem contains_eq_false_iff (l : List Int) (a : Int) : l.contains a = false ↔ a ∉ l := by
  simp [List.contains]

theorem handle_unique_iff (s : Store) (x : Op × Request)
    (hs : ∀ u, ((s.todos u).map Todo.ID).Nodup) :
    (∀ u, (((handle x.1 s x.2).1.todos u).map Todo.ID).Nodup) ↔ keepsIdsUnique s x = true := by
  obtain ⟨op, r⟩ := x
  cases op with
  | signUp =>
    simp only [handle, keepsIdsUnique, SignUp_todos, iff_true]
    exact hs
  | signIn =>
    simp only [handle, keepsIdsUnique, SignIn_store, iff_true]
    exact hs
  | getTodos =>
    simp only [handle, keepsIdsUnique, GetTodos_store, iff_true]
    exact hs
  | deleteTodo =>
    simp only [handle, keepsIdsUnique, iff_true]
    intro u
    exact (hs u).sublist ((DeleteTodo_sublist s r u).map Todo.ID)
  | createTodo =>
    simp only [handle, keepsIdsUnique, CreateTodo_eq]
    by_cases hu : (getUsernameFromRequest r).2 = ""
    · simp only [if_pos hu, iff_true]
      exact hs
    · simp only [if_neg hu]
      cases r.todoBody with
      | none =>
        simp only [iff_true]
        exact hs
      | some t =>
        simp only [createCommit, Bool.not_eq_true', contains_eq_false_iff]
        constructor
        · intro h
          have := h (getUsernameFromRequest r).2
          simp only [Function.update_same, List.map_append, List.map_cons, List.map_nil] at this
          rw [List.nodup_append] at this
          intro hmem
          exact this.2.2 hmem (by simp)
        · intro hfresh u
          by_cases huv : u = (getUsernameFromRequest r).2
          · subst huv
            simp only [Function.update_same, List.map_append, List.map_cons, List.map_nil]
            rw [List.nodup_append]
            refine ⟨hs _, by simp, ?_⟩
            intro a ha hb
            simp at hb
            subst hb
            exact hfresh ha
          · simp only [Function.update_noteq huv]
            exact hs u
  | updateTodo =>
    simp only [handle, keepsIdsUnique, UpdateTodo_eq]
    by_cases hu : (getUsernameFromRequest r).2 = ""
    · simp only [if_pos hu, iff_true]
      exact hs
    · simp only [if_neg hu]
      cases r.todoBody with
      | none =>
        simp only [iff_true]
        exact hs
      | some t =>
        simp only
        by_cases hm : ∃ y ∈ s.todos (getUsernameFromRequest r).2, fmtD y.ID = r.pathId
        · obtain ⟨pre, old, post, hl, hpre, hold⟩ := exists_first_match _ _ hm
          have hnd := hs (getUsernameFromRequest r).2
          rw [hl, replaceFirst_split r.pathId t old pre post hpre hold,
            find_first_match r.pathId pre post old hpre hold]
          rw [hl] at hnd
          simp only [List.map_append, List.map_cons] at hnd
          have key := nodup_replace_middle _ _ old.ID t.ID hnd
          simp only [Bool.or_eq_true, decide_eq_true_eq, Bool.not_eq_true',
            contains_eq_false_iff, List.map_append, List.map_cons]
          rw [← key]
          constructor
          · intro h
            have := h (getUsernameFromRequest r).2
            simpa using this
          · intro h u
            by_cases huv : u = (getUsernameFromRequest r).2
            · subst huv
              simpa using h
            · simp only [Function.update_noteq huv]
              exact hs u
        · have hno : ∀ y ∈ s.todos (getUsernameFromRequest r).2, fmtD y.ID ≠ r.pathId :=
            fun y hy hye => hm ⟨y, hy, hye⟩
          have hfind : (s.todos (getUsernameFromRequest r).2).find?
              (fun x => decide (fmtD x.ID = r.pathId)) = none := by
            rw [List.find?_eq_none]
            intro y hy
            simpa using hno y hy
          rw [replaceFirst_eq_none r.pathId t _ hno, hfind]
          simp only [iff_true]
          exact hs

theorem run_unique (trace : List (Op × Request)) (s : Store)
    (hx : keepsIdsUniqueAlong s trace = true)
    (hs : ∀ u, ((s.todos u).map Todo.ID).Nodup) :
    ∀ u, (((run s trace).todos u).map Todo.ID).Nodup := by
  induction trace generalizing s with
  | nil => exact hs
  | cons x rest ih =>
    obtain ⟨op, r⟩ := x
    simp only [keepsIdsUniqueAlong, Bool.and_eq_true] at hx
    simp only [run]
    exact ih _ hx.2 ((handle_unique_iff s (op, r) hs).mpr hx.1)

/-- C6, as stated, fails: the store reached from the empty one by three creates, the delete
of id 2 and one more create (all by `alice`) holds the ids `[1, 3, 3]`, which are not
pairwise distinct. -/
theorem id_uniqueness_not_invariant :
    Reachable (run Store.empty duplicateIdTrace) ∧
    ((run Store.empty duplicateIdTrace).todos "alice").map Todo.ID = [1, 3, 3] ∧
    ¬ (((run Store.empty duplicateIdTrace).todos "alice").map Todo.ID).Nodup := by
  have hids : ((run Store.empty duplicateIdTrace).todos "alice").map Todo.ID = [1, 3, 3] := by
    decide
  refine ⟨⟨duplicateIdTrace, rfl⟩, hids, ?_⟩
  rw [hids]
  decide

/-- C6, amended: with requests served one at a time, a store in which no user's list repeats
an id is taken to another such store by a request exactly when the request passes
`keepsIdsUnique`, that is, unless it is a create accepted while an entry with id `len + 1`
is stored or an update accepted with a body id that differs from the replaced entry's id and
is stored elsewhere in the list; deletes, rejected requests, sign-up, sign-in and list always
pass.  Hence every store reached from the empty one by a sequence of requests served one at
a time, each passing the test where it is served, has pairwise distinct ids in every user's
list. -/
theorem ids_unique_iff_no_colliding_request (trace : List (Op × Request))
    (hx : keepsIdsUniqueAlong Store.empty trace = true) :
    (∀ u, (((run Store.empty trace).todos u).map Todo.ID).Nodup) ∧
    (∀ (s : Store) (x : Op × Request), (∀ u, ((s.todos u).map Todo.ID).Nodup) →
      ((∀ u, (((handle x.1 s x.2).1.todos u).map Todo.ID).Nodup) ↔ keepsIdsUnique s x = true)) ∧
    (∀ (s : Store) (r : Request), keepsIdsUnique s (Op.deleteTodo, r) = true) :=
  ⟨run_unique trace Store.empty hx (fun u => by simp [Store.empty]),
    fun s x hs => handle_unique_iff s x hs, fun _ _ => rfl⟩

theorem ids_unique_iff_no_colliding_request_witness :
    ((run Store.empty
        [(Op.createTodo, authedRequest "alice" "" (some ⟨0, "A", false, 0⟩) 1),
         (Op.createTodo, authedRequest "alice" "" (some ⟨0, "B", false, 0⟩) 2),
         (Op.createTodo, authedRequest "alice" "" (some ⟨0, "C", false, 0⟩) 3),
         (Op.deleteTodo, authedRequest "alice" "1" none 4),
         (Op.deleteTodo, authedRequest "bob" "7" none 5),
         (Op.updateTodo, authedRequest "alice" "3" (some ⟨9, "C2", true, 0⟩) 6)]).todos
      "alice").map Todo.ID = [2, 9] ∧
    (((run Store.empty
        [(Op.createTodo, authedRequest "alice" "" (some ⟨0, "A", false, 0⟩) 1),
         (Op.createTodo, authedRequest "alice" "" (some ⟨0, "B", false, 0⟩) 2),
         (Op.createTodo, authedRequest "alice" "" (some ⟨0, "C", false, 0⟩) 3),
         (Op.deleteTodo, authedRequest "alice" "1" none 4),
         (Op.deleteTodo, authedRequest "bob" "7" none 5),
         (Op.updateTodo, authedRequest "alice" "3" (some ⟨9, "C2", true, 0⟩) 6)]).todos
      "alice").map Todo.ID).Nodup :=
  ⟨by decide,
   (ids_unique_iff_no_colliding_request
    [(Op.createTodo, authedRequest "alice" "" (some ⟨0, "A", false, 0⟩) 1),
     (Op.createTodo, authedRequest "alice" "" (some ⟨0, "B", false, 0⟩) 2),
     (Op.createTodo, authedRequest "alice" "" (some ⟨0, "C", false, 0⟩) 3),
     (Op.deleteTodo, authedRequest "alice" "1" none 4),
     (Op.deleteTodo, authedRequest "bob" "7" none 5),
     (Op.updateTodo, authedRequest "alice" "3" (some ⟨9, "C2", true, 0⟩) 6)]
    (by decide)).1 "alice"⟩

/-- C7, as stated, fails: `alice` creates a todo at clock reading 5, then updates id 1 with a
body whose createdAt is 0; the update is answered 200 and the createdAt stored at that
position is 0 afterwards, not 5. -/
theorem update_overwrites_createdAt :
    ((run Store.empty
        [(Op.createTodo, authedRequest "alice" "" (some ⟨0, "A", false, 0⟩) 5)]).todos
      "alice").map Todo.CreatedAt = [5] ∧
    (UpdateTodo
        (run Store.empty [(Op.createTodo, authedRequest "alice" "" (some ⟨0, "A", false, 0⟩) 5)])
        (authedRequest "alice" "1" (some ⟨1, "A", true, 0⟩) 9)).2
      = ⟨statusOK, .todo ⟨1, "A", true, 0⟩⟩ ∧
    ((UpdateTodo
        (run Store.empty [(Op.createTodo, authedRequest "alice" "" (some ⟨0, "A", false, 0⟩) 5)])
        (authedRequest "alice" "1" (some ⟨1, "A", true, 0⟩) 9)).1.todos
      "alice").map Todo.CreatedAt = [0] := by
  decide

theorem httpError_ne_todo (msg : String) (code : Nat) (t : Todo) :
    httpError msg code ≠ ⟨statusOK, .todo t⟩ := by
  intro h
  have := congrArg Response.body h
  simp [httpError] at this

theorem resolver_response_ne_todo (r : Request) (t : Todo) :
    (getUsernameFromRequest r).1 ≠ ⟨statusOK, .todo t⟩ := by
  intro h
  rcases getUsernameFromRequest_cases r with hc | hc | hc
  · rw [hc] at h
    exact httpError_ne_todo _ _ t h
  · rw [hc] at h
    exact httpError_ne_todo _ _ t h
  · rw [hc] at h
    have := congrArg Response.body h
    simp [noResponse] at this

/-- C7, amended, for requests served one at a time.  Sign-up, sign-in and list change no todo
list.  A create that is rejected (empty username or undecodable body) leaves the store as it
is; an accepted one appends exactly one entry, stamped with the clock reading, to its user's
list and changes nothing else.  A delete that is rejected or matches nothing leaves the store
as it is; otherwise it removes exactly the first matching entry of its user's list and
changes nothing else.  An update that is rejected or matches nothing leaves the store as it
is; otherwise it is answered 200 and replaces the record at the first matching position of
its user's list by the caller-supplied record, so that the createdAt at that position becomes
the caller-supplied one, while every other entry keeps its record and createdAt. -/
theorem createdAt_changes_only_by_update (s : Store) (r : Request) :
    (SignUp s r).1.todos = s.todos ∧
    (SignIn s r).1 = s ∧
    (GetTodos s r).1 = s ∧
    -- create, rejected
    (((getUsernameFromRequest r).2 = "" ∨ r.todoBody = none) → (CreateTodo s r).1 = s) ∧
    -- create, accepted
    (∀ t, (getUsernameFromRequest r).2 ≠ "" → r.todoBody = some t →
      (CreateTodo s r).1.todos (getUsernameFromRequest r).2
        = s.todos (getUsernameFromRequest r).2
          ++ [⟨((s.todos (getUsernameFromRequest r).2).length : Int) + 1, t.Title, t.Completed,
                r.now⟩] ∧
      (∀ v, v ≠ (getUsernameFromRequest r).2 → (CreateTodo s r).1.todos v = s.todos v) ∧
      (CreateTodo s r).1.users = s.users) ∧
    -- delete, rejected or without a match
    (((getUsernameFromRequest r).2 = "" ∨
        ∀ x ∈ s.todos (getUsernameFromRequest r).2, fmtD x.ID ≠ r.pathId) →
      (DeleteTodo s r).1 = s) ∧
    -- delete, with a match
    ((getUsernameFromRequest r).2 ≠ "" →
      (∃ x ∈ s.todos (getUsernameFromRequest r).2, fmtD x.ID = r.pathId) →
      ∃ pre old post,
        s.todos (getUsernameFromRequest r).2 = pre ++ old :: post ∧
        (∀ x ∈ pre, fmtD x.ID ≠ r.pathId) ∧ fmtD old.ID = r.pathId ∧
        (DeleteTodo s r).1.todos (getUsernameFromRequest r).2 = pre ++ post ∧
        ((DeleteTodo s r).1.todos (getUsernameFromRequest r).2).map Todo.CreatedAt
          = pre.map Todo.CreatedAt ++ post.map Todo.CreatedAt ∧
        (∀ v, v ≠ (getUsernameFromRequest r).2 → (DeleteTodo s r).1.todos v = s.todos v) ∧
        (DeleteTodo s r).1.users = s.users) ∧
    -- update, rejected or without a match
    (((getUsernameFromRequest r).2 = "" ∨ r.todoBody = none ∨
        ∀ x ∈ s.todos (getUsernameFromRequest r).2, fmtD x.ID ≠ r.pathId) →
      (UpdateTodo s r).1 = s ∧ ∀ t, (UpdateTodo s r).2 ≠ ⟨statusOK, .todo t⟩) ∧
    -- update, with a match
    (∀ new, (getUsernameFromRequest r).2 ≠ "" → r.todoBody = some new →
      (∃ x ∈ s.todos (getUsernameFromRequest r).2, fmtD x.ID = r.pathId) →
      ∃ pre old post,
        s.todos (getUsernameFromRequest r).2 = pre ++ old :: post ∧
        (∀ x ∈ pre, fmtD x.ID ≠ r.pathId) ∧ fmtD old.ID = r.pathId ∧
        (UpdateTodo s r).2 = ⟨statusOK, .todo new⟩ ∧
        (UpdateTodo s r).1.todos (getUsernameFromRequest r).2 = pre ++ new :: post ∧
        ((UpdateTodo s r).1.todos (getUsernameFromRequest r).2).map Todo.CreatedAt
          = pre.map Todo.CreatedAt ++ new.CreatedAt :: post.map Todo.CreatedAt ∧
        (∀ v, v ≠ (getUsernameFromRequest r).2 → (UpdateTodo s r).1.todos v = s.todos v) ∧
        (UpdateTodo s r).1.users = s.users) := by
  refine ⟨SignUp_todos s r, SignIn_store s r, GetTodos_store s r, ?_, ?_, ?_, ?_, ?_, ?_⟩
  · rintro (hu | hb)
    · rw [CreateTodo_eq, if_pos hu]
    · rw [CreateTodo_eq, hb]
      split <;> rfl
  · intro t hu hb
    rw [CreateTodo_eq, if_neg hu, hb]
    refine ⟨by simp [createCommit], ?_, rfl⟩
    intro v hv
    simp [createCommit, Function.update_noteq hv]
  · rintro (hu | hno)
    · rw [DeleteTodo_eq, if_pos hu]
    · rw [DeleteTodo_eq, removeFirst_eq_none _ _ hno]
      split <;> rfl
  · intro hu hm
    obtain ⟨pre, old, post, hl, hpre, hold⟩ := exists_first_match _ _ hm
    have hrem := removeFirst_split r.pathId old pre post hpre hold
    refine ⟨pre, old, post, hl, hpre, hold, ?_⟩
    rw [DeleteTodo_eq, if_neg hu, hl, hrem]
    refine ⟨by simp, by simp, ?_, rfl⟩
    intro v hv
    simp [Function.update_noteq hv]
  · have hresp : ∀ t, (getUsernameFromRequest r).1 ≠ ⟨statusOK, .todo t⟩ :=
      fun t => resolver_response_ne_todo r t
    intro hfail
    by_cases hu : (getUsernameFromRequest r).2 = ""
    · rw [UpdateTodo_eq, if_pos hu]
      exact ⟨rfl, hresp⟩
    · cases hb : r.todoBody with
      | none =>
        rw [UpdateTodo_eq, if_neg hu, hb]
        exact ⟨rfl, fun t => httpError_ne_todo _ _ t⟩
      | some new =>
        have hno : ∀ x ∈ s.todos (getUsernameFromRequest r).2, fmtD x.ID ≠ r.pathId := by
          rcases hfail with h | h | h
          · exact absurd h hu
          · rw [hb] at h
            exact absurd h (by simp)
          · exact h
        have hup : UpdateTodo s r = (s, httpError "Todo not found" statusNotFound) := by
          rw [UpdateTodo_eq, if_neg hu, hb]
          simp only [replaceFirst_eq_none _ new _ hno]
        rw [hup]
        exact ⟨rfl, fun t => httpError_ne_todo _ _ t⟩
  · intro new hu hb hm
    obtain ⟨pre, old, post, hl, hpre, hold⟩ := exists_first_match _ _ hm
    have hrep := replaceFirst_split r.pathId new old pre post hpre hold
    have hup : UpdateTodo s r =
        ({ s with todos := Function.update s.todos (getUsernameFromRequest r).2
                    (pre ++ new :: post) },
          ⟨statusOK, .todo new⟩) := by
      rw [UpdateTodo_eq, if_neg hu, hb]
      simp only [hl, hrep]
    refine ⟨pre, old, post, hl, hpre, hold, ?_⟩
    rw [hup]
    refine ⟨rfl, by simp, by simp, ?_, rfl⟩
    intro v hv
    simp [Function.update_noteq hv]

theorem createdAt_changes_only_by_update_witness :
    ((UpdateTodo
        (run Store.empty
          [(Op.createTodo, authedRequest "alice" "" (some ⟨0, "A", false, 0⟩) 5),
           (Op.createTodo, authedRequest "alice" "" (some ⟨0, "B", false, 0⟩) 6)])
        (authedRequest "alice" "7" (some ⟨7, "Z", true, 0⟩) 9)).1
      = run Store.empty
          [(Op.createTodo, authedRequest "alice" "" (some ⟨0, "A", false, 0⟩) 5),
           (Op.createTodo, authedRequest "alice" "" (some ⟨0, "B", false, 0⟩) 6)]) ∧
    ((CreateTodo Store.empty
        (authedRequest "alice" "" (some ⟨0, "A", false, 0⟩) 5)).1.todos "alice")
      = [⟨1, "A", false, 5⟩] :=
  ⟨((createdAt_changes_only_by_update
      (run Store.empty
        [(Op.createTodo, authedRequest "alice" "" (some ⟨0, "A", false, 0⟩) 5),
         (Op.createTodo, authedRequest "alice" "" (some ⟨0, "B", false, 0⟩) 6)])
      (authedRequest "alice" "7" (some ⟨7, "Z", true, 0⟩) 9)).2.2.2.2.2.2.2.1
        (Or.inr (Or.inr (by decide)))).1,
   ((createdAt_changes_only_by_update Store.empty
      (authedRequest "alice" "" (some ⟨0, "A", false, 0⟩) 5)).2.2.2.2.1
        ⟨0, "A", false, 0⟩ (by decide) rfl).1⟩

/-! ## Session resolver -/

/-- C5, the failing inputs: a token that `jwt.ParseWithClaims` rejects as expired, and one it
rejects for its signature, reach the handler as a `*jwt.ValidationError`, which is not the
sentinel `jwt.ErrSignatureInvalid`; `getUsernameFromRequest` answers both with 400
"Bad request" rather than 401. -/
theorem rejected_token_answers_bad_request :
    getUsernameFromRequest expiredTokenRequest
      = (httpError "Bad request" statusBadRequest, "") ∧
    getUsernameFromRequest tamperedTokenRequest
      = (httpError "Bad request" statusBadRequest, "") := by
  decide

/-! ## Concurrent creates -/

/-- A request that takes its two steps back to back is the handler `CreateTodo`. -/
theorem stepThread_twice (s : Store) (r : Request) :
    (stepThread (stepThread s (.start r)).1 (stepThread s (.start r)).2).1 = (CreateTodo s r).1 ∧
    (stepThread (stepThread s (.start r)).1 (stepThread s (.start r)).2).2.response
      = some (CreateTodo s r).2 := by
  unfold CreateTodo
  simp only [stepThread]
  cases createPrepare s r with
  | inl resp => exact ⟨rfl, rfl⟩
  | inr p => exact ⟨rfl, rfl⟩

/-- C8, the failing schedule: two creates by `alice` on an empty list, each running lines
104-115 before either enters the locked region.  Both requests finish with 201, the list
holds two todos, and both carry id 1.  Run one after the other, the same requests get ids 1
and 2. -/
theorem concurrent_creates_share_an_id :
    ((runSchedule Store.empty twoCreates [0, 1, 0, 1]).1.todos "alice")
      = [⟨1, "A", false, 10⟩, ⟨1, "B", false, 11⟩] ∧
    (runSchedule Store.empty twoCreates [0, 1, 0, 1]).2.map CreateThread.response
      = [some ⟨statusCreated, .todo ⟨1, "A", false, 10⟩⟩,
         some ⟨statusCreated, .todo ⟨1, "B", false, 11⟩⟩] ∧
    ((runSchedule Store.empty twoCreates [0, 0, 1, 1]).1.todos "alice").map Todo.ID
      = [1, 2] := by
  decide

/-! ## String match against numeric match -/

theorem replaceFirst_eq_numeric (tok : String) (h : isDecimalNumeral tok = true)
    (new : Todo) (l : List Todo) :
    replaceFirst tok new l = replaceFirstNumeric tok new l := by
  induction l with
  | nil => rfl
  | cons a l ih =>
    unfold replaceFirst replaceFirstNumeric
    rw [ih]
    by_cases hm : fmtD a.ID = tok
    · rw [if_pos hm, if_pos ((fmtD_eq_iff_parse a.ID tok h).mp hm)]
    · rw [if_neg hm, if_neg (fun hp => hm ((fmtD_eq_iff_parse a.ID tok h).mpr hp))]

theorem removeFirst_eq_numeric (tok : String) (h : isDecimalNumeral tok = true)
    (l : List Todo) :
    removeFirst tok l = removeFirstNumeric tok l := by
  induction l with
  | nil => rfl
  | cons a l ih =>
    unfold removeFirst removeFirstNumeric
    rw [ih]
    by_cases hm : fmtD a.ID = tok
    · rw [if_pos hm, if_pos ((fmtD_eq_iff_parse a.ID tok h).mp hm)]
    · rw [if_neg hm, if_neg (fun hp => hm ((fmtD_eq_iff_parse a.ID tok h).mpr hp))]

/-- C9: for a path token that is a decimal numeral without leading zeros (with or without a
minus sign), and every stored integer id, the rendering of the id equals the token exactly when the token parses to the
id; so the scans of `UpdateTodo` and `DeleteTodo` give the same result on every list whether
they match by rendered string or by parsed number. -/
theorem string_match_iff_numeric_match (tok : String) (h : isDecimalNumeral tok = true) :
    (∀ id : Int, fmtD id = tok ↔ parsePathId tok = some id) ∧
    (∀ new l, replaceFirst tok new l = replaceFirstNumeric tok new l) ∧
    (∀ l, removeFirst tok l = removeFirstNumeric tok l) :=
  ⟨fun id => fmtD_eq_iff_parse id tok h, replaceFirst_eq_numeric tok h,
    removeFirst_eq_numeric tok h⟩

theorem string_match_iff_numeric_match_witness :
    isDecimalNumeral "120" = true ∧ (fmtD 120 = "120" ↔ parsePathId "120" = some 120) ∧
    (fmtD (-7) = "-7" ↔ parsePathId "-7" = some (-7)) ∧
    removeFirst "120" [⟨7, "A", false, 0⟩, ⟨120, "B", false, 0⟩]
      = removeFirstNumeric "120" [⟨7, "A", false, 0⟩, ⟨120, "B", false, 0⟩] :=
  ⟨by decide, (string_match_iff_numeric_match "120" (by decide)).1 120,
    (string_match_iff_numeric_match "-7" (by decide)).1 (-7),
    (string_match_iff_numeric_match "120" (by decide)).2.2 _⟩

/-! ## The empty username -/

theorem handle_todos_empty_user (op : Op) (s : Store) (r : Request) :
    (handle op s r).1.todos "" = s.todos "" := by
  cases op with
  | signUp => simp only [handle, SignUp_todos]
  | signIn => simp only [handle, SignIn_store]
  | getTodos => simp only [handle, GetTodos_store]
  | createTodo =>
    simp only [handle, CreateTodo_eq]
    split
    · rfl
    · rename_i hne
      cases r.todoBody with
      | none => rfl
      | some t => simp [createCommit, Function.update_noteq (Ne.symm hne)]
  | updateTodo =>
    simp only [handle, UpdateTodo_eq]
    split
    · rfl
    · rename_i hne
      cases r.todoBody with
      | none => rfl
      | some t =>
        simp only
        split
        · simp [Function.update_noteq (Ne.symm hne)]
        · rfl
  | deleteTodo =>
    simp only [handle, DeleteTodo_eq]
    split
    · rfl
    · rename_i hne
      split
      · simp [Function.update_noteq (Ne.symm hne)]
      · rfl

theorem run_todos_empty_user (trace : List (Op × Request)) (s : Store) :
    (run s trace).todos "" = s.todos "" := by
  induction trace generalizing s with
  | nil => rfl
  | cons x rest ih =>
    obtain ⟨op, r⟩ := x
    simp only [run]
    rw [ih, handle_todos_empty_user]

/-- C10: when `getUsernameFromRequest` returns the empty string for a request, each of
`CreateTodo`, `GetTodos`, `UpdateTodo` and `DeleteTodo` returns at once with the store
unchanged and nothing written beyond what the resolver wrote.  The resolver returns the
empty string on every rejection (whenever it writes an error response) and also for a token
that verifies with an empty username claim; `SignUp` and `SignIn` accept the empty username.
Hence the todo list of the user `""` is empty in every reachable store. -/
theorem empty_username_never_served (s : Store) (r : Request)
    (h : (getUsernameFromRequest r).2 = "") (s' : Store) (hs' : Reachable s') :
    CreateTodo s r = (s, (getUsernameFromRequest r).1) ∧
    GetTodos s r = (s, (getUsernameFromRequest r).1) ∧
    UpdateTodo s r = (s, (getUsernameFromRequest r).1) ∧
    DeleteTodo s r = (s, (getUsernameFromRequest r).1) ∧
    (∀ q : Request, (getUsernameFromRequest q).1 ≠ noResponse →
      (getUsernameFromRequest q).2 = "") ∧
    (∀ q : Request, ∀ tok, q.cookie = .found tok → q.parsed = ⟨none, true, ""⟩ →
      getUsernameFromRequest q = (noResponse, "")) ∧
    (∀ (q : Request) (pw hash : String), q.credsBody = some ⟨"", pw⟩ →
      q.bcryptHash = some hash →
      (SignUp s q).2 = ⟨statusCreated, .empty⟩ ∧ (SignUp s q).1.users "" = some hash) ∧
    (∀ (q : Request) (pw hash tokenString : String), q.credsBody = some ⟨"", pw⟩ →
      s.users "" = some hash → q.bcryptMatches hash pw = true →
      q.signed = some tokenString →
      (SignIn s q).2 = ⟨statusOK, .cookie tokenString (q.now + 300)⟩) ∧
    s'.todos "" = [] := by
  refine ⟨?_, ?_, ?_, ?_, ?_, ?_, ?_, ?_, ?_⟩
  · rw [CreateTodo_eq, if_pos h]
  · rw [GetTodos_eq, if_pos h]
  · rw [UpdateTodo_eq, if_pos h]
  · rw [DeleteTodo_eq, if_pos h]
  · intro q hq
    rcases getUsernameFromRequest_cases q with hq' | hq' | hq'
    · rw [hq']
    · rw [hq']
    · rw [hq'] at hq
      exact absurd rfl hq
  · intro q tok hc hp
    unfold getUsernameFromRequest
    rw [hc, hp]
    rfl
  · intro q pw hash hc hb
    unfold SignUp
    rw [hc, hb]
    simp
  · intro q pw hash tokenString hc hu hm hsig
    unfold SignIn
    rw [hc]
    simp only [hu, hm, hsig]
    rfl
  · obtain ⟨trace, rfl⟩ := hs'
    rw [run_todos_empty_user]
    rfl

theorem empty_username_never_served_witness :
    CreateTodo Store.empty (authedRequest "" "" (some ⟨0, "A", false, 0⟩) 1)
        = (Store.empty, noResponse) ∧
    (run Store.empty
        [(Op.signUp, credsRequest ⟨"", "pw"⟩ (some "h") true (some "tok") 0),
         (Op.createTodo, authedRequest "" "" (some ⟨0, "A", false, 0⟩) 1)]).todos "" = [] :=
  ⟨(empty_username_never_served Store.empty
      (authedRequest "" "" (some ⟨0, "A", false, 0⟩) 1) (by decide)
      Store.empty ⟨[], rfl⟩).1,
   (empty_username_never_served Store.empty
      (authedRequest "" "" (some ⟨0, "A", false, 0⟩) 1) (by decide)
      (run Store.empty
        [(Op.signUp, credsRequest ⟨"", "pw"⟩ (some "h") true (some "tok") 0),
         (Op.createTodo, authedRequest "" "" (some ⟨0, "A", false, 0⟩) 1)])
      ⟨_, rfl⟩).2.2.2.2.2.2.2.2⟩

end TodoApi
